import Mathlib

/-!
Verification of the LDAM-Voice_Encryption repository against its
natural-language specification.

Part 1 embeds the Arduino actuator sketch `voice_control/voice_control.ino`
as a trace semantics: each movement function is a list of hardware events
(digital pin writes, PWM writes, serial prints, delays), and the state of
the motor pins is obtained by folding the writes over a `MotorState`.

Part 2 models the Python orchestration pipeline (session deduplication,
per-command cooldown, verification worker gating, result handling and
ordered dispatch).  Those modules are described by the specification and
the repository README but their source is not part of the repository
snapshot, so they are modelled from the spec, as marked on each
definition.
-/

namespace VoiceControl

/-- Motor pin numbers, from the constant declarations at the top of
`voice_control.ino`: ENA = 5, IN1 = 2, IN2 = 3, ENB = 6, IN3 = 4, IN4 = 7. -/
def ENA : Nat := 5

def IN1 : Nat := 2

def IN2 : Nat := 3

def ENB : Nat := 6

def IN3 : Nat := 4

def IN4 : Nat := 7

/-- One observable hardware action of the sketch: a `digitalWrite`, an
`analogWrite`, a `Serial.println`, or a `delay`. -/
inductive Event where
  | dWrite (pin : Nat) (level : Bool)
  | aWrite (pin : Nat) (value : Nat)
  | println (s : String)
  | delayMs (ms : Nat)
deriving DecidableEq, Repr

/-- State of the six motor output pins: the four direction pins (HIGH =
`true`, LOW = `false`) and the two PWM enables. -/
structure MotorState where
  in1 : Bool
  in2 : Bool
  in3 : Bool
  in4 : Bool
  ena : Nat
  enb : Nat
deriving DecidableEq, Repr

/-- Applying one event to the motor state: pin writes update the matching
field, serial prints and delays leave the pins untouched. -/
def applyEvent (s : MotorState) : Event → MotorState
  | .dWrite p v =>
      if p = IN1 then { s with in1 := v }
      else if p = IN2 then { s with in2 := v }
      else if p = IN3 then { s with in3 := v }
      else if p = IN4 then { s with in4 := v }
      else s
  | .aWrite p v =>
      if p = ENA then { s with ena := v }
      else if p = ENB then { s with enb := v }
      else s
  | .println _ => s
  | .delayMs _ => s

/-- Run a trace of events from a starting motor state. -/
def runEvents (s : MotorState) (es : List Event) : MotorState :=
  es.foldl applyEvent s

/-- Serial output of a trace: the arguments of its `println` events, in
order. -/
def printlns : List Event → List String
  | [] => []
  | .println m :: es => m :: printlns es
  | _ :: es => printlns es

/-- The `leftForward` helper: IN1 LOW, IN2 HIGH. -/
def leftForward : List Event :=
  [.dWrite IN1 false, .dWrite IN2 true]

/-- The `leftBackward` helper: IN1 HIGH, IN2 LOW. -/
def leftBackward : List Event :=
  [.dWrite IN1 true, .dWrite IN2 false]

/-- The `rightForward` helper: IN3 HIGH, IN4 LOW. -/
def rightForward : List Event :=
  [.dWrite IN3 true, .dWrite IN4 false]

/-- The `rightBackward` helper: IN3 LOW, IN4 HIGH. -/
def rightBackward : List Event :=
  [.dWrite IN3 false, .dWrite IN4 true]

/-- The `forwardMove` function: prints "Forward", drives both motors in the
robot-forward direction and sets both PWM enables to 200. -/
def forwardMove : List Event :=
  .println "Forward" :: leftBackward ++ rightBackward ++
    [.aWrite ENA 200, .aWrite ENB 200]

/-- The `backwardMove` function: prints "Backward", drives both motors in
the robot-backward direction and sets both PWM enables to 200. -/
def backwardMove : List Event :=
  .println "Backward" :: leftForward ++ rightForward ++
    [.aWrite ENA 200, .aWrite ENB 200]

/-- The `steerLeft` function: prints "Left", runs the turn phase (left
wheel backward at PWM 120, right wheel forward at PWM 200) for 350 ms,
then calls `forwardMove`. -/
def steerLeft : List Event :=
  .println "Left" :: leftForward ++ rightBackward ++
    [.aWrite ENA 120, .aWrite ENB 200, .delayMs 350] ++ forwardMove

/-- The `steerRight` function: prints "Right", runs the turn phase (left
wheel forward at PWM 200, right wheel backward at PWM 120) for 350 ms,
then calls `forwardMove`. -/
def steerRight : List Event :=
  .println "Right" :: leftBackward ++ rightForward ++
    [.aWrite ENA 200, .aWrite ENB 120, .delayMs 350] ++ forwardMove

/-- The `stopMotors` function: prints "Stop" and drives all four direction
pins LOW.  The PWM enables are not touched. -/
def stopMotors : List Event :=
  [.println "Stop", .dWrite IN1 false, .dWrite IN2 false,
    .dWrite IN3 false, .dWrite IN4 false]

/-- Arduino `isspace`, used by `String::trim`: space and the five control
whitespace characters. -/
def isSpaceChar (c : Char) : Bool :=
  c = ' ' || c = '\t' || c = '\n' || c = '\x0b' || c = '\x0c' || c = '\r'

/-- Arduino `tolower` on one character: ASCII uppercase letters are mapped
to lowercase, everything else is unchanged. -/
def asciiLower (c : Char) : Char :=
  if 'A' ≤ c ∧ c ≤ 'Z' then Char.ofNat (c.toNat + 32) else c

/-- Arduino `String::trim`: remove leading and trailing whitespace. -/
def trimChars (cs : List Char) : List Char :=
  (((cs.dropWhile isSpaceChar).reverse).dropWhile isSpaceChar).reverse

/-- The normalization the sketch applies to a received line:
`cmd.trim(); cmd.toLowerCase();`. -/
def normalizeCmd (line : String) : String :=
  String.mk ((trimChars line.toList).map asciiLower)

/-- The dispatch chain of `loop()` on the already-normalized command
string: five exact string comparisons, any other string does nothing. -/
def dispatchCmd (cmd : String) : List Event :=
  if cmd = "forward" then forwardMove
  else if cmd = "backward" then backwardMove
  else if cmd = "right" then steerLeft
  else if cmd = "left" then steerRight
  else if cmd = "stop" then stopMotors
  else []

/-- One iteration of `loop()` on a received line: trim, lowercase,
dispatch. -/
def loopBody (line : String) : List Event :=
  dispatchCmd (normalizeCmd line)

/-- The five command strings the dispatch chain recognizes. -/
def recognizedCmds : List String :=
  ["forward", "backward", "right", "left", "stop"]

/-- The turn phase of a steering trace: the events before the first
`delay`. -/
def turnPhase (es : List Event) : List Event :=
  es.takeWhile fun e =>
    match e with
    | .delayMs _ => false
    | _ => true

/-- The PWM writes of a trace, as (pin, value) pairs in order. -/
def analogWrites : List Event → List (Nat × Nat)
  | [] => []
  | .aWrite p v :: es => (p, v) :: analogWrites es
  | _ :: es => analogWrites es

/-- Split a character list into maximal whitespace-free tokens. -/
def tokensAux : List Char → List Char → List String
  | [], acc => if acc.isEmpty then [] else [String.mk acc.reverse]
  | c :: cs, acc =>
      if isSpaceChar c then
        if acc.isEmpty then tokensAux cs []
        else String.mk acc.reverse :: tokensAux cs []
      else tokensAux cs (c :: acc)

/-- Stated from the spec (for comparison with the sketch): the
whitespace-separated tokens of the lowercased text, the reading under
which matching is "case-insensitive, whitespace-normalized,
substring-token based against the configured vocabulary". -/
def tokens (text : String) : List String :=
  tokensAux (text.toList.map asciiLower) []

/-- Stated from the spec (for comparison with the sketch): `text`
contains the vocabulary word `vocab` as a token. -/
def containsCommandToken (text vocab : String) : Bool :=
  (tokens text).contains vocab

/-- C1: a line whose trimmed, lowercased form is not one of the five
recognized command strings produces no event at all — no movement
function runs, nothing is printed, and every motor pin keeps its previous
value. -/
theorem loop_ignores_unrecognized (line : String)
    (h : normalizeCmd line ∉ recognizedCmds) :
    loopBody line = [] ∧ ∀ s : MotorState, runEvents s (loopBody line) = s := by
  simp only [recognizedCmds, List.mem_cons, List.not_mem_nil, or_false,
    not_or] at h
  obtain ⟨h1, h2, h3, h4, h5⟩ := h
  have he : loopBody line = [] := by
    simp [loopBody, dispatchCmd, h1, h2, h3, h4, h5]
  exact ⟨he, fun s => by rw [he]; rfl⟩

/-- Witness for C1 at the concrete line "hello robot". -/
theorem loop_ignores_unrecognized_witness :
    normalizeCmd "hello robot" ∉ recognizedCmds ∧
      loopBody "hello robot" = [] :=
  ⟨by decide, (loop_ignores_unrecognized "hello robot" (by decide)).1⟩

/-- C2, counterexample: the text "go forward" contains the vocabulary
word "forward" as a token, yet the loop dispatches nothing for it —
matching in the sketch is exact whole-string comparison, not
substring-token based. -/
theorem token_match_not_dispatched :
    containsCommandToken "go forward" "forward" = true ∧
      loopBody "go forward" = [] := by
  constructor
  · decide
  · decide

/-- C2, amended: the dispatched action depends only on the trimmed,
lowercased form of the line (case-insensitive, surrounding whitespace
ignored), and any line whose normalized form is not exactly one of the
five vocabulary strings dispatches nothing. -/
theorem dispatch_depends_only_on_normal_form :
    (∀ l1 l2 : String, normalizeCmd l1 = normalizeCmd l2 →
        loopBody l1 = loopBody l2) ∧
    (∀ line : String, normalizeCmd line ∉ recognizedCmds →
        loopBody line = []) := by
  constructor
  · intro l1 l2 h
    simp [loopBody, h]
  · intro line h
    exact (loop_ignores_unrecognized line h).1

/-- Witness for the amended C2: "  FORWARD  " acts exactly like
"forward", and the unrecognized phrase "go forward" dispatches
nothing. -/
theorem dispatch_depends_only_on_normal_form_witness :
    loopBody "  FORWARD  " = loopBody "forward" ∧
      loopBody "go forward" = [] :=
  ⟨dispatch_depends_only_on_normal_form.1 "  FORWARD  " "forward" (by decide),
    dispatch_depends_only_on_normal_form.2 "go forward" (by decide)⟩

/-- C8: the sketch cross-wires the steering commands — input "right"
runs `steerLeft` (serial echo "Left") and input "left" runs `steerRight`
(serial echo "Right"), and the turn-phase wheel PWM values are those of
the opposite direction (input "right" gets the slow-left/fast-right
phase and vice versa). -/
theorem steering_cross_wired :
    loopBody "right" = steerLeft ∧
    loopBody "left" = steerRight ∧
    printlns steerLeft = ["Left", "Forward"] ∧
    printlns steerRight = ["Right", "Forward"] ∧
    analogWrites (turnPhase steerLeft) = [(ENA, 120), (ENB, 200)] ∧
    analogWrites (turnPhase steerRight) = [(ENA, 200), (ENB, 120)] := by
  decide

/-- C9: from any prior motor state, both steering commands end in exactly
the motor state the "forward" command produces: IN1 HIGH, IN2 LOW, IN3
LOW, IN4 HIGH, both PWM enables 200. -/
theorem steering_ends_in_forward_state (s : MotorState) :
    runEvents s (loopBody "left") = runEvents s (loopBody "forward") ∧
    runEvents s (loopBody "right") = runEvents s (loopBody "forward") ∧
    runEvents s (loopBody "forward") =
      ⟨true, false, false, true, 200, 200⟩ := by
  obtain ⟨a, b, c, d, e, f⟩ := s
  exact ⟨rfl, rfl, rfl⟩

/-- C10: from any prior motor state, after the "stop" command all four
direction pins are LOW. -/
theorem stop_clears_direction_pins (s : MotorState) :
    (runEvents s (loopBody "stop")).in1 = false ∧
    (runEvents s (loopBody "stop")).in2 = false ∧
    (runEvents s (loopBody "stop")).in3 = false ∧
    (runEvents s (loopBody "stop")).in4 = false := by
  obtain ⟨a, b, c, d, e, f⟩ := s
  exact ⟨rfl, rfl, rfl, rfl⟩

/-- Modelled from the spec: the SessionDeduplicator (its Python module is
not part of the repository snapshot) tracks the commands already
dispatched within the current session, order of first admission
preserved. -/
structure SessionDeduplicator where
  admitted : List String
deriving DecidableEq, Repr

/-- Modelled from the spec: a fresh deduplicator, created on session
start, reset only by session termination. -/
def freshDedup : SessionDeduplicator :=
  ⟨[]⟩

/-- Modelled from the spec: `admitOnce(command)` returns true exactly when the
command has not yet been admitted this session, and records it. -/
def admitOnce (d : SessionDeduplicator) (c : String) : Bool × SessionDeduplicator :=
  if c ∈ d.admitted then (false, d) else (true, ⟨d.admitted ++ [c]⟩)

/-- A sequence of `admitOnce` calls within one session: the returned booleans
in call order, and the final deduplicator state. -/
def runAdmits (d : SessionDeduplicator) : List String → List Bool × SessionDeduplicator
  | [] => ([], d)
  | c :: cs =>
      ((admitOnce d c).1 :: (runAdmits (admitOnce d c).2 cs).1,
        (runAdmits (admitOnce d c).2 cs).2)

theorem admitOnce_fst (d : SessionDeduplicator) (c : String) :
    (admitOnce d c).1 = true ↔ c ∉ d.admitted := by
  by_cases hc : c ∈ d.admitted <;> simp [admitOnce, hc]

theorem mem_admitOnce_snd (d : SessionDeduplicator) (c x : String) :
    x ∈ (admitOnce d c).2.admitted ↔ x ∈ d.admitted ∨ x = c := by
  by_cases hc : c ∈ d.admitted
  · simp only [admitOnce, if_pos hc]
    constructor
    · exact Or.inl
    · rintro (h | rfl)
      · exact h
      · exact hc
  · simp [admitOnce, hc, List.mem_append]

theorem runAdmits_flag (cs : List String) :
    ∀ (d : SessionDeduplicator) (i : Nat), i < cs.length →
      ((runAdmits d cs).1.getD i false = true ↔
        (cs.getD i "" ∉ d.admitted ∧ cs.getD i "" ∉ cs.take i)) := by
  induction cs with
  | nil =>
      intro d i h
      simp at h
  | cons c cs ih =>
      intro d i h
      match i with
      | 0 =>
          simp [runAdmits, admitOnce_fst]
      | i + 1 =>
          have h' : i < cs.length := Nat.lt_of_succ_lt_succ h
          have hstep := ih (admitOnce d c).2 i h'
          simp only [runAdmits, List.getD_cons_succ] at hstep ⊢
          rw [hstep, mem_admitOnce_snd]
          simp only [List.take_succ_cons, List.mem_cons, not_or]
          tauto

/-- C3: within one session started fresh, the i-th `admitOnce` call returns
true exactly when its command did not occur among the earlier calls of
the session — so each distinct command is admitted on its first call and
refused on every subsequent call until the session is reset. -/
theorem dedup_admits_each_command_once (cs : List String) (i : Nat)
    (h : i < cs.length) :
    (runAdmits freshDedup cs).1.getD i false = true ↔
      cs.getD i "" ∉ cs.take i := by
  have hmain := runAdmits_flag cs freshDedup i h
  simpa [freshDedup] using hmain

/-- Witness for C3: in the call sequence ["left", "forward", "left"] the
first "left" is admitted and the repeated "left" is refused. -/
theorem dedup_admits_each_command_once_witness :
    (runAdmits freshDedup ["left", "forward", "left"]).1.getD 0 false = true ∧
      ¬ (runAdmits freshDedup ["left", "forward", "left"]).1.getD 2 false
          = true := by
  constructor
  · exact (dedup_admits_each_command_once ["left", "forward", "left"] 0
      (by decide)).mpr (by decide)
  · intro hc
    exact absurd ((dedup_admits_each_command_once ["left", "forward", "left"] 2
      (by decide)).mp hc) (by decide)

/-- Modelled from the spec: the CooldownRegistry (its Python module is not
part of the repository snapshot) maps each command to the timestamp of
its last fire; the newest entry for a command shadows older ones. -/
structure CooldownRegistry where
  entries : List (String × Nat)
deriving DecidableEq, Repr

/-- Last fire timestamp recorded for a command, if any. -/
def lastFire (r : CooldownRegistry) (c : String) : Option Nat :=
  (r.entries.find? fun e => e.1 == c).map fun e => e.2

/-- Record a fire timestamp for a command. -/
def setLast (r : CooldownRegistry) (c : String) (t : Nat) : CooldownRegistry :=
  ⟨(c, t) :: r.entries⟩

/-- Modelled from the spec: `shouldFire(command, now)` is one atomic
check-and-set — it returns true when the command never fired or when
`now - lastFire ≥ cooldown`, and in that case records `now` as the new
last-fire timestamp; otherwise it returns false and leaves the registry
unchanged.  A concurrent pair of calls is, by the atomicity required in
the spec, some sequential interleaving of the two operations. -/
def shouldFire (r : CooldownRegistry) (cooldown : Nat) (c : String)
    (now : Nat) : Bool × CooldownRegistry :=
  match lastFire r c with
  | none => (true, setLast r c now)
  | some t => if cooldown ≤ now - t then (true, setLast r c now) else (false, r)

theorem lastFire_setLast (r : CooldownRegistry) (c : String) (t : Nat) :
    lastFire (setLast r c t) c = some t := by
  simp [lastFire, setLast, List.find?]

/-- C4: two `shouldFire` calls for the same command whose timestamps are
within the cooldown interval never both return true — whichever of the
two atomic check-and-set operations runs second returns false (the
timestamps `t1`, `t2` are arbitrary, so both interleavings of a
concurrent pair are covered) — and a call that returns true records its
timestamp as the new last-fire timestamp. -/
theorem cooldown_excludes_double_fire (r : CooldownRegistry) (cd : Nat)
    (c : String) (t1 t2 : Nat) (h : t2 - t1 < cd) :
    (¬ ((shouldFire r cd c t1).1 = true ∧
        (shouldFire (shouldFire r cd c t1).2 cd c t2).1 = true)) ∧
    (∀ now : Nat, (shouldFire r cd c now).1 = true →
        lastFire (shouldFire r cd c now).2 c = some now) := by
  have hrec : ∀ now : Nat, (shouldFire r cd c now).1 = true →
      (shouldFire r cd c now).2 = setLast r c now := by
    intro now hnow
    cases hl : lastFire r c with
    | none => simp [shouldFire, hl]
    | some t =>
        by_cases hle : cd ≤ now - t
        · simp [shouldFire, hl, hle]
        · simp [shouldFire, hl, hle] at hnow
  constructor
  · rintro ⟨h1, h2⟩
    rw [hrec t1 h1] at h2
    rw [shouldFire, lastFire_setLast] at h2
    simp [Nat.not_le.mpr h] at h2
  · intro now hnow
    rw [hrec now hnow, lastFire_setLast]

/-- Witness for C4: on an empty registry with cooldown 10, a fire at time
100 blocks a second fire at time 105. -/
theorem cooldown_excludes_double_fire_witness :
    ¬ ((shouldFire ⟨[]⟩ 10 "left" 100).1 = true ∧
        (shouldFire (shouldFire ⟨[]⟩ 10 "left" 100).2 10 "left" 105).1
          = true) :=
  (cooldown_excludes_double_fire ⟨[]⟩ 10 "left" 100 105 (by decide)).1

/-- Modelled from the spec: outcome of one verification job — either
rejected as too short, or scored by the external SpeakerVerifier and
compared against the acceptance threshold. -/
inductive VerifyOutcome where
  | rejectedTooShort
  | verified (accepted : Bool)
deriving DecidableEq, Repr

/-- Modelled from the spec: the VerificationWorkerPool job body (its
Python module is not part of the repository snapshot).  A segment —
represented by its duration — strictly shorter than the minimum
verification duration is rejected TooShort without invoking the model;
otherwise the external verifier (the oracle `score`) is invoked and its
score compared against the threshold.  The second component records
whether the model was invoked. -/
def processJob (minDur threshold : Nat) (score : Nat → Nat)
    (duration : Nat) : VerifyOutcome × Bool :=
  if duration < minDur then (.rejectedTooShort, false)
  else (.verified (threshold ≤ score duration), true)

/-- C6: a segment strictly below the minimum verification duration is
rejected TooShort with the model never invoked, while a segment exactly
at the minimum threshold is passed to the verifier (the model is
invoked and the outcome is its score compared to the threshold). -/
theorem too_short_rejected_without_model (minDur threshold : Nat)
    (score : Nat → Nat) (duration : Nat) :
    (duration < minDur →
        processJob minDur threshold score duration
          = (.rejectedTooShort, false)) ∧
    (duration = minDur →
        (processJob minDur threshold score duration).2 = true ∧
        (processJob minDur threshold score duration).1
          = .verified (threshold ≤ score duration)) := by
  constructor
  · intro h
    simp [processJob, h]
  · intro h
    subst h
    simp [processJob]

/-- Witness for C6 at the README defaults (durations in tenths of a
second, minimum 1.8 s): a 1.7 s segment is rejected without the model,
a 1.8 s segment reaches the verifier. -/
theorem too_short_rejected_without_model_witness :
    processJob 18 5 (fun _ => 7) 17 = (.rejectedTooShort, false) ∧
      (processJob 18 5 (fun _ => 7) 18).2 = true :=
  ⟨(too_short_rejected_without_model 18 5 (fun _ => 7) 17).1 (by decide),
    ((too_short_rejected_without_model 18 5 (fun _ => 7) 18).2 rfl).1⟩

/-- Modelled from the spec: a VerificationResult carries the speaker
decision and the originating candidate commands, untouched, in detection
order. -/
structure VerificationResult where
  accepted : Bool
  commands : List String
deriving DecidableEq, Repr

/-- Modelled from the spec: acceptance-time handling of the candidate
commands of an accepted result — per command, in order, re-check the
CooldownRegistry then the SessionDeduplicator and dispatch only when
both admitOnce. -/
def dispatchAccepted (cd now : Nat) (reg : CooldownRegistry)
    (d : SessionDeduplicator) :
    List String → List String × CooldownRegistry × SessionDeduplicator
  | [] => ([], reg, d)
  | c :: cs =>
      let f := shouldFire reg cd c now
      if f.1 then
        let a := admitOnce d c
        let rest := dispatchAccepted cd now f.2 a.2 cs
        if a.1 then (c :: rest.1, rest.2) else rest
      else dispatchAccepted cd now reg d cs

/-- Modelled from the spec: handling of an arriving VerificationResult —
a rejected result is discarded with no dispatch, no cooldown consumed
and no deduplication recorded; an accepted result goes through
`dispatchAccepted`. -/
def handleResult (cd now : Nat) (reg : CooldownRegistry)
    (d : SessionDeduplicator) (res : VerificationResult) :
    List String × CooldownRegistry × SessionDeduplicator :=
  if res.accepted then dispatchAccepted cd now reg d res.commands
  else ([], reg, d)

/-- C7: a rejected VerificationResult dispatches nothing and leaves the
CooldownRegistry (and the deduplicator) exactly as they were, so any
later `shouldFire` for any command behaves exactly as if the rejected
result had never arrived. -/
theorem rejected_result_consumes_nothing (cd now : Nat)
    (reg : CooldownRegistry) (d : SessionDeduplicator) (cmds : List String) :
    handleResult cd now reg d ⟨false, cmds⟩ = ([], reg, d) ∧
    ∀ (c : String) (later : Nat),
      shouldFire (handleResult cd now reg d ⟨false, cmds⟩).2.1 cd c later
        = shouldFire reg cd c later := by
  constructor
  · simp [handleResult]
  · intro c later
    simp [handleResult]

/-- Modelled from the spec: one verification job as the controller sees
it — its candidate commands in detection order and whether verification
accepted the speaker. -/
structure Job where
  commands : List String
  accepted : Bool
deriving DecidableEq, Repr

/-- Controller-thread dispatch state: the index of the next job whose
commands may be sent, the indices of results that have arrived but whose
turn has not come, and the commands sent to the ActuatorGateway in
order. -/
structure CtrlState where
  nextIdx : Nat
  arrived : List Nat
  sent : List String
deriving DecidableEq, Repr

/-- Modelled from the spec: gateway calls happen from the controller
thread strictly in detection order, so a completion that arrives out of
order is held back until every earlier job's result has been handled;
`flushSteps` dispatches consecutive pending jobs starting at the next
expected index (the fuel is an upper bound on the number of jobs still
pending). -/
def flushSteps (jobs : List Job) : Nat → CtrlState → CtrlState
  | 0, st => st
  | fuel + 1, st =>
      if st.nextIdx ∈ st.arrived then
        flushSteps jobs fuel
          ⟨st.nextIdx + 1, st.arrived.erase st.nextIdx,
            st.sent ++
              (if (jobs.getD st.nextIdx ⟨[], false⟩).accepted then
                (jobs.getD st.nextIdx ⟨[], false⟩).commands
              else [])⟩
      else st

/-- Modelled from the spec: a verification result for job `i` is
delivered to the controller thread, which buffers it and flushes every
job whose turn has come. -/
def onArrival (jobs : List Job) (st : CtrlState) (i : Nat) : CtrlState :=
  flushSteps jobs jobs.length ⟨st.nextIdx, i :: st.arrived, st.sent⟩

/-- Modelled from the spec: one session — the verification results of the
detected jobs arrive in completion order `order` and the controller
dispatches from its own thread. -/
def runSession (jobs : List Job) (order : List Nat) : CtrlState :=
  order.foldl (onArrival jobs) ⟨0, [], []⟩

/-- C5: with candidate commands detected in order [left, forward] in one
session and both accepted, the ActuatorGateway observes "left" strictly
before "forward" under either completion order of the two verification
jobs, including the out-of-order one. -/
theorem left_dispatched_before_forward (order : List Nat)
    (h : order = [0, 1] ∨ order = [1, 0]) :
    (runSession [⟨["left"], true⟩, ⟨["forward"], true⟩] order).sent
      = ["left", "forward"] := by
  rcases h with rfl | rfl
  · decide
  · decide

/-- Witness for C5 at the out-of-order completion [1, 0]. -/
theorem left_dispatched_before_forward_witness :
    (runSession [⟨["left"], true⟩, ⟨["forward"], true⟩] [1, 0]).sent
      = ["left", "forward"] :=
  left_dispatched_before_forward [1, 0] (Or.inr rfl)

end VoiceControl
